import Mathlib

/-!
Verification of the chengyu (idiom word-chaining) game plugin.

The definitions below are a shallow embedding of `src/main.py`:

* Python strings are Lean `String`s; the regex `[^一-鿿]` stripping
  is `stripHan`; `str.strip()` is `pyStrip`.
* Python `dict`s (insertion ordered, unique keys) are association lists with
  `dictGet` / `dictSet` / `dictErase`.
* Each call to the LLM provider (`provider.text_chat`) yields a `CallOutcome`:
  `noProvider` when no provider could be obtained, `failure e` when the call
  raised an exception with message `e`, and `reply s` for a reply whose
  `completion_text` is `s` (`reply ""` covers the falsy/empty response).
* Each `yield event.plain_result(...)` site in the handlers is a `Reply`
  constructor carrying the data interpolated into the message.
* The plugin's mutable fields (`active_sessions`, `user_scores`,
  `game_history`) form a `PluginState`; the handlers are functions from a
  state (plus the event data and the LLM call outcomes of that turn) to the
  new state and the list of emitted replies.  File persistence (`save_data`)
  is out of scope.
-/

namespace Chengyu

/-- The permitted alphabet: CJK unified ideographs, `[一-鿿]`. -/
def isHan (c : Char) : Bool := 0x4e00 ≤ c.toNat && c.toNat ≤ 0x9fff

/-- `re.sub(r"[^一-鿿]", "", text)`: keep only permitted characters. -/
def stripHan (s : String) : String := ⟨s.data.filter isHan⟩

/-- Python `str.strip()`: drop whitespace from both ends. -/
def pyStrip (s : String) : String :=
  ⟨(s.data.dropWhile Char.isWhitespace).rdropWhile Char.isWhitespace⟩

/-- Python `s[0]` (callers only use it on nonempty strings). -/
def strFirst (s : String) : Char := s.data.headD 'A'

/-- Python `s[-1]` (callers only use it on nonempty strings). -/
def strLast (s : String) : Char := s.data.getLastD 'A'

/-- Python `str.lower()` (only Latin letters matter here). -/
def strToLower (s : String) : String := ⟨s.data.map Char.toLower⟩

/-- Whether `needle` occurs as a contiguous run inside the list (Python
`needle in hay` on strings, and `re.match(".*X.*")`). -/
def hasInfix (needle : List Char) : List Char → Bool
  | [] => needle.isEmpty
  | c :: rest => needle.isPrefixOf (c :: rest) || hasInfix needle rest

/-- Python `needle in hay` substring test. -/
def strContainsSub (hay needle : String) : Bool := hasInfix needle.data hay.data

/-- Python `text.startswith("/")`. -/
def startsWithSlash (s : String) : Bool := s.data.headD ' ' = '/'

/-- Python `[0-9a-zA-Z]` character class (`re.search` membership). -/
def isDigitLatin (c : Char) : Bool :=
  ('0' ≤ c && c ≤ '9') || ('a' ≤ c && c ≤ 'z') || ('A' ≤ c && c ≤ 'Z')

/-- Python slice `l[-n:]`: the last `n` elements (all of them when short). -/
def lastN (n : Nat) (l : List α) : List α := l.drop (l.length - n)

/-! ### Python dicts as association lists -/

/-- `d.get(k)` / `k in d` lookup on an insertion-ordered dict. -/
def dictGet (d : List (String × α)) (k : String) : Option α :=
  match d with
  | [] => none
  | (k', v) :: rest => if k' = k then some v else dictGet rest k

/-- `d[k] = v`: overwrite in place, or append a fresh key. -/
def dictSet (d : List (String × α)) (k : String) (v : α) : List (String × α) :=
  match d with
  | [] => [(k, v)]
  | (k', v') :: rest =>
    if k' = k then (k, v) :: rest else (k', v') :: dictSet rest k v

/-- `del d[k]` (dict keys are unique, so removing every binding is the same). -/
def dictErase (d : List (String × α)) (k : String) : List (String × α) :=
  d.filter (fun p => !(p.1 = k))

/-! ### LLM call outcomes -/

/-- Outcome of one `provider.text_chat` attempt as seen by the caller. -/
inductive CallOutcome
  | noProvider
  | failure (e : String)
  | reply (s : String)
deriving DecidableEq, Repr

/-! ### The pure core functions of the plugin -/

/-- The `non_chengyu_patterns` of `is_potential_chengyu`, each pattern
`.*X.*` represented by the run of characters `X` it requires. -/
def bannedPatterns : List (List Char) :=
  [['说'], ['了'], ['你'], ['我'], ['他'], ['这'], ['那'], ['什', '么'], ['怎', '么']]

/-- `is_potential_chengyu`: the fast heuristic pre-filter. -/
def is_potential_chengyu (text : String) : Bool :=
  if text = "" then false
  else
    let cleaned := stripHan text
    if cleaned.length ≠ 4 then false
    else if startsWithSlash text then false
    else if text.data.any isDigitLatin then false
    else if bannedPatterns.any (fun p => hasInfix p cleaned.data) then false
    else true

/-- The affirmative-token scan applied to the judge's reply in
`is_valid_chengyu`. -/
def affirmative (result : String) : Bool :=
  strContainsSub result "是" || strContainsSub (strToLower result) "yes" ||
    strContainsSub (strToLower result) "true" || strContainsSub result "成语"

/-- The wrong-length rejection message of `is_valid_chengyu`, carrying the
length measured after stripping. -/
def wrongLenMsg (n : Nat) : String :=
  "成语应为4个汉字，你输入了" ++ toString n ++ "个字"

/-- `is_valid_chengyu`: format checks, then the external judge, which is
fail-open.  Returns the `(bool, reason)` pair of the source. -/
def is_valid_chengyu (text : String) (judge : CallOutcome) : Bool × String :=
  if text = "" then (false, "文本为空")
  else
    let cleaned := stripHan text
    if cleaned.length ≠ 4 then (false, wrongLenMsg cleaned.length)
    else if cleaned = "" ∨ cleaned.data.all isHan = false then (false, "成语应全为汉字")
    else
      match judge with
      | .noProvider => (true, "格式检查通过")
      | .failure _ => (true, "基础检查通过")
      | .reply s =>
        if s = "" then (true, "基础检查通过")
        else if affirmative (pyStrip s) then (true, "LLM验证通过")
        else (false, "不是标准成语")

/-- `generate_random_chengyu`: the seed generator, falling back to the fixed
default idiom on any failure. -/
def generate_random_chengyu (o : CallOutcome) : String :=
  match o with
  | .noProvider => "龙飞凤舞"
  | .failure _ => "龙飞凤舞"
  | .reply s =>
    if s = "" then "龙飞凤舞"
    else
      let generated := stripHan (pyStrip s)
      if generated.length = 4 then generated else "龙飞凤舞"

/-- `can_jielong`: the chain check, comparing the previous idiom's last
character with the candidate's first character. -/
def can_jielong (last_chengyu new_chengyu : String) : Bool × String :=
  if last_chengyu = "" ∨ new_chengyu = "" then (false, "成语为空")
  else
    let last_char := strLast last_chengyu
    let first_char := strFirst new_chengyu
    if last_char = first_char then (true, "可以接龙")
    else
      (false, "无法接龙：\x27" ++ last_chengyu ++ "\x27的尾字是\x27" ++
        String.singleton last_char ++ "\x27，\x27" ++ new_chengyu ++
        "\x27的首字是\x27" ++ String.singleton first_char ++ "\x27")

/-- `ai_jielong`: opponent move generation from one LLM call outcome.
Returns the `(success, chengyu-or-error, reason)` triple of the source. -/
def ai_jielong (last_chengyu : String) (o : CallOutcome) : Bool × String × String :=
  match o with
  | .noProvider => (false, "未配置LLM", "")
  | .failure e => (false, "AI接龙失败", e)
  | .reply s =>
    if s = "" then (false, "AI接龙失败", "无响应")
    else
      let ai_chengyu := stripHan (pyStrip s)
      if ai_chengyu.length = 4 ∧ strFirst ai_chengyu = strLast last_chengyu then
        (true, ai_chengyu, "AI接龙成功")
      else (false, "AI接龙失败", "格式不符合要求")

/-- `ai_jielong` lifted to a stream of oracle outcomes: the source performs a
single `text_chat` call per move, so only the first outcome is consulted. -/
def ai_jielong_call (last_chengyu : String) (oracle : Nat → CallOutcome) :
    Bool × String × String :=
  ai_jielong last_chengyu (oracle 0)

/-! ### Game state -/

/-- One entry of a session's in-game `user_scores` dict. -/
structure UserGameScore where
  name : String
  score : Nat
deriving DecidableEq, Repr

/-- One value of `active_sessions`. -/
structure GameSession where
  current_chengyu : String
  history : List String
  user_scores : List (String × UserGameScore)
  start_time : String
  last_player : String
deriving DecidableEq, Repr

/-- One completed-game entry of a user's `recent_games`. -/
structure ScoreGame where
  score : Nat
  timestamp : String
  date : String
deriving DecidableEq, Repr

/-- Per-user value inside `user_scores[session_id]`. -/
structure UserRecord where
  name : String
  recent_games : List ScoreGame
deriving DecidableEq, Repr

/-- One entry of `game_history[session_id]`. -/
structure GameRecord where
  start_time : String
  end_time : String
  history : List String
  total_rounds : Nat
  participants : Nat
deriving DecidableEq, Repr

/-- The plugin's mutable state. -/
structure PluginState where
  active_sessions : List (String × GameSession)
  user_scores : List (String × List (String × UserRecord))
  game_history : List (String × List GameRecord)
deriving DecidableEq, Repr

/-- One `yield event.plain_result(...)` site, with the data interpolated
into the message. -/
inductive Reply
  | alreadyActive
  | invalidStart (chengyu reason : String)
  | generating
  | gameStarted (chengyu : String)
  | noActiveGame
  | gameStopped (historyLen participants : Nat)
  | invalidInput (userName reason : String)
  | cannotChain (userName reason : String)
  | duplicateUsed (userName chengyu : String)
  | userSuccess (userName chengyu : String) (score : Nat)
  | aiMove (chengyu : String) (rounds : Nat)
  | aiDuplicate (chengyu userName : String)
  | aiFailed (userName aiReason : String)
deriving DecidableEq, Repr

/-- `add_user_score`: append this game's score to the user's rolling record,
keep the most recent 3, and overwrite the stored name. -/
def add_user_score (us : List (String × List (String × UserRecord)))
    (session_id user_id user_name : String) (score : Nat) (ts date : String) :
    List (String × List (String × UserRecord)) :=
  let sess := (dictGet us session_id).getD []
  let rec0 := (dictGet sess user_id).getD ⟨user_name, []⟩
  let rec1 : UserRecord :=
    ⟨user_name, lastN 3 (rec0.recent_games ++ [⟨score, ts, date⟩])⟩
  dictSet us session_id (dictSet sess user_id rec1)

/-- `start_game`: begin a session unless one is already active.  `judge` is
the validation call's outcome (used when a seed is given), `genOracle` the
generation call's outcome (used when no seed is given), `now` the clock. -/
def start_game (st : PluginState) (session_id : String) (args : List String)
    (judge genOracle : CallOutcome) (now : String) : PluginState × List Reply :=
  if (dictGet st.active_sessions session_id).isSome then (st, [.alreadyActive])
  else if args ≠ [] then
    let start_chengyu := String.join args
    let v := is_valid_chengyu start_chengyu judge
    if v.1 = false then (st, [.invalidStart start_chengyu v.2])
    else
      ({ st with active_sessions := (dictSet st.active_sessions session_id
          ⟨start_chengyu, [start_chengyu], [], now, "AI"⟩) },
        [.gameStarted start_chengyu])
  else
    let start_chengyu := generate_random_chengyu genOracle
    ({ st with active_sessions := (dictSet st.active_sessions session_id
        ⟨start_chengyu, [start_chengyu], [], now, "AI"⟩) },
      [.generating, .gameStarted start_chengyu])

/-- `stop_game`: finalize the session — flush each participant's pending
score through `add_user_score`, append a game-history record (keeping the
last 10), and remove the session. -/
def stop_game (st : PluginState) (session_id : String) (nowIso nowDate : String) :
    PluginState × List Reply :=
  match dictGet st.active_sessions session_id with
  | none => (st, [.noActiveGame])
  | some game =>
    let us1 := game.user_scores.foldl
      (fun us p => add_user_score us session_id p.1 p.2.name p.2.score nowIso nowDate)
      st.user_scores
    let grec : GameRecord :=
      ⟨game.start_time, nowIso, game.history, game.history.length - 1,
        game.user_scores.length⟩
    let gh1 := lastN 10 ((dictGet st.game_history session_id).getD [] ++ [grec])
    (⟨dictErase st.active_sessions session_id, us1,
        dictSet st.game_history session_id gh1⟩,
      [.gameStopped game.history.length game.user_scores.length])

/-- `handle_chengyu_input`: the per-message turn pipeline.  `judge` is the
outcome of the validation LLM call, `aiO` the outcome of the opponent-move
LLM call (each made at most once per turn). -/
def handle_chengyu_input (st : PluginState) (session_id user_id user_name rawMsg : String)
    (judge aiO : CallOutcome) : PluginState × List Reply :=
  match dictGet st.active_sessions session_id with
  | none => (st, [])
  | some game =>
    let message_text := pyStrip rawMsg
    if startsWithSlash message_text then (st, [])
    else if ¬ is_potential_chengyu message_text then (st, [])
    else
      let v := is_valid_chengyu message_text judge
      if v.1 = false then (st, [.invalidInput user_name v.2])
      else
        let c := can_jielong game.current_chengyu message_text
        if c.1 = false then (st, [.cannotChain user_name c.2])
        else if message_text ∈ game.history then
          (st, [.duplicateUsed user_name message_text])
        else
          let entry0 := (dictGet game.user_scores user_id).getD ⟨user_name, 0⟩
          let entry1 : UserGameScore := ⟨user_name, entry0.score + 1⟩
          let game1 : GameSession :=
            { game with current_chengyu := message_text
                        history := game.history ++ [message_text]
                        user_scores := dictSet game.user_scores user_id entry1
                        last_player := "USER" }
          let r1 := Reply.userSuccess user_name message_text entry1.score
          let ai := ai_jielong message_text aiO
          if ai.1 = true then
            let aic := ai.2.1
            if aic ∈ game1.history then
              ({ st with active_sessions := dictSet st.active_sessions session_id game1 },
                [r1, .aiDuplicate aic user_name])
            else
              let game2 : GameSession :=
                { game1 with current_chengyu := aic
                             history := game1.history ++ [aic]
                             last_player := "AI" }
              ({ st with active_sessions := dictSet st.active_sessions session_id game2 },
                [r1, .aiMove aic (game2.history.length - 1)])
          else
            ({ st with active_sessions := dictSet st.active_sessions session_id game1 },
              [r1, .aiFailed user_name ai.2.2])

/-! ### Derived notions used by the specification -/

/-- The chain relation between two successive idioms, as decided by
`can_jielong`. -/
def chainOk (a b : String) : Prop := (can_jielong a b).1 = true

/-- The session invariant of the spec: no duplicate history entries, each
consecutive pair chains, and the current idiom is the last history entry. -/
def SessionInv (g : GameSession) : Prop :=
  g.history.Nodup ∧ List.Chain' chainOk g.history ∧
    g.history.getLast? = some g.current_chengyu

/-- Every active session of the registry satisfies the invariant. -/
def StateInv (st : PluginState) : Prop :=
  ∀ sid g, dictGet st.active_sessions sid = some g → SessionInv g

/-- Reachable plugin states: any initial state with no active session
(whatever persisted scores/history were loaded from disk), closed under
the three handlers with arbitrary event data and LLM call outcomes. -/
inductive Reachable : PluginState → Prop
  | init (us : List (String × List (String × UserRecord)))
      (gh : List (String × List GameRecord)) : Reachable ⟨[], us, gh⟩
  | start (st : PluginState) (sid : String) (args : List String)
      (judge gen : CallOutcome) (now : String) : Reachable st →
      Reachable (start_game st sid args judge gen now).1
  | stop (st : PluginState) (sid t1 t2 : String) : Reachable st →
      Reachable (stop_game st sid t1 t2).1
  | input (st : PluginState) (sid uid uname msg : String)
      (judge aiO : CallOutcome) : Reachable st →
      Reachable (handle_chengyu_input st sid uid uname msg judge aiO).1

/-- The rolling record a `(session, user)` pair currently holds in the
score ledger. -/
def gamesOf (us : List (String × List (String × UserRecord))) (sid uid : String) :
    List ScoreGame :=
  ((dictGet ((dictGet us sid).getD []) uid).getD ⟨"", []⟩).recent_games

/-! ## Helper lemmas -/

lemma mem_dropWhile_of_neg {p : α → Bool} {l : List α} {c : α}
    (hc : c ∈ l) (hp : p c = false) : c ∈ l.dropWhile p := by
  rw [← List.takeWhile_append_dropWhile (p := p) (l := l)] at hc
  rcases List.mem_append.mp hc with h | h
  · exact absurd (List.mem_takeWhile_imp h) (by simp [hp])
  · exact h

lemma mem_rdropWhile_of_neg {p : α → Bool} {l : List α} {c : α}
    (hc : c ∈ l) (hp : p c = false) : c ∈ l.rdropWhile p := by
  rw [List.rdropWhile, List.mem_reverse]
  exact mem_dropWhile_of_neg (List.mem_reverse.mpr hc) hp

lemma filter_dropWhile {p q : α → Bool} (hpq : ∀ c, q c = true → p c = false)
    (l : List α) : (l.dropWhile q).filter p = l.filter p := by
  induction l with
  | nil => rfl
  | cons a t ih =>
    rw [List.dropWhile_cons, List.filter_cons]
    by_cases h : q a = true
    · rw [if_pos h, ih, if_neg (by simp [hpq a h])]
    · rw [if_neg h, List.filter_cons]

lemma filter_rdropWhile {p q : α → Bool} (hpq : ∀ c, q c = true → p c = false)
    (l : List α) : (l.rdropWhile q).filter p = l.filter p := by
  rw [List.rdropWhile, List.filter_reverse, filter_dropWhile hpq,
    List.filter_reverse, List.reverse_reverse]

lemma ws_cases (c : Char) (h : c.isWhitespace = true) :
    c = ' ' ∨ c = '\t' ∨ c = '\r' ∨ c = '\n' := by
  simpa [Char.isWhitespace, or_assoc] using h

lemma ws_not_han {c : Char} (h : c.isWhitespace = true) : isHan c = false := by
  rcases ws_cases c h with h' | h' | h' | h' <;> subst h' <;> decide

lemma digitLatin_not_ws {c : Char} (h : isDigitLatin c = true) :
    c.isWhitespace = false := by
  by_contra hws
  rcases ws_cases c (by simpa using hws) with h' | h' | h' | h' <;> subst h' <;>
    exact absurd h (by decide)

lemma stripHan_pyStrip (s : String) : stripHan (pyStrip s) = stripHan s := by
  unfold stripHan pyStrip
  congr 1
  show ((s.data.dropWhile Char.isWhitespace).rdropWhile Char.isWhitespace).filter isHan
      = s.data.filter isHan
  rw [filter_rdropWhile (fun c h => ws_not_han h),
    filter_dropWhile (fun c h => ws_not_han h)]

lemma mem_pyStrip_of_not_ws {s : String} {c : Char}
    (hc : c ∈ s.data) (hws : c.isWhitespace = false) : c ∈ (pyStrip s).data := by
  unfold pyStrip
  exact mem_rdropWhile_of_neg (mem_dropWhile_of_neg hc hws) hws

lemma startsWithSlash_pyStrip {s : String} (h : startsWithSlash s = true) :
    startsWithSlash (pyStrip s) = true := by
  unfold startsWithSlash pyStrip at *
  simp only [decide_eq_true_eq] at h ⊢
  cases hd : s.data with
  | nil => rw [hd] at h; simp [List.headD] at h
  | cons a t =>
    rw [hd] at h
    simp only [List.headD] at h
    subst h
    show ((('/' :: t).dropWhile Char.isWhitespace).rdropWhile
        Char.isWhitespace).headD ' ' = '/'
    rw [List.dropWhile_cons, if_neg (by decide)]
    have hne : ('/' :: t).rdropWhile Char.isWhitespace ≠ [] := by
      rw [Ne, List.rdropWhile_eq_nil_iff]
      intro hall
      exact absurd (hall '/' (by simp)) (by decide)
    obtain ⟨u, hu⟩ := List.rdropWhile_prefix (p := Char.isWhitespace)
      (l := '/' :: t)
    cases hr : ('/' :: t).rdropWhile Char.isWhitespace with
    | nil => exact absurd hr hne
    | cons b bs =>
      rw [hr, List.cons_append] at hu
      have hb : b = '/' := (List.cons.injEq ..).mp hu |>.1
      subst hb
      simp [List.headD]

lemma stripHan_all_isHan (text : String) : (stripHan text).data.all isHan = true := by
  rw [List.all_eq_true]
  intro c hc
  exact (List.mem_filter.mp hc).2

lemma stripHan_text_ne_empty {text : String} (h : (stripHan text).length = 4) :
    text ≠ "" := by
  intro he
  subst he
  simp [stripHan, String.length] at h

lemma stripHan_self_ne_empty {text : String} (h : (stripHan text).length = 4) :
    ¬(stripHan text = "" ∨ (stripHan text).data.all isHan = false) := by
  rintro (he | hall)
  · rw [he] at h; simp [String.length] at h
  · rw [stripHan_all_isHan] at hall; cases hall

/-! ## Dict lemmas -/

lemma dictGet_set_self (d : List (String × α)) (k : String) (v : α) :
    dictGet (dictSet d k v) k = some v := by
  induction d with
  | nil => simp [dictGet, dictSet]
  | cons p rest ih =>
    obtain ⟨k', v'⟩ := p
    by_cases h : k' = k <;> simp [dictGet, dictSet, h, ih]

lemma dictGet_set_ne (d : List (String × α)) {k k' : String} (h : k' ≠ k) (v : α) :
    dictGet (dictSet d k v) k' = dictGet d k' := by
  induction d with
  | nil => simp [dictGet, dictSet, Ne.symm h]
  | cons p rest ih =>
    obtain ⟨k'', v''⟩ := p
    by_cases hk : k'' = k
    · subst hk
      simp [dictGet, dictSet, Ne.symm h]
    · simp only [dictSet, if_neg hk, dictGet, ih]

lemma dictGet_erase_self (d : List (String × α)) (k : String) :
    dictGet (dictErase d k) k = none := by
  induction d with
  | nil => rfl
  | cons p rest ih =>
    obtain ⟨k', v'⟩ := p
    by_cases h : k' = k
    · simpa [dictErase, h] using ih
    · simpa [dictErase, dictGet, h] using ih

lemma dictGet_erase_ne (d : List (String × α)) {k k' : String} (h : k' ≠ k) :
    dictGet (dictErase d k) k' = dictGet d k' := by
  induction d with
  | nil => rfl
  | cons p rest ih =>
    obtain ⟨k'', v''⟩ := p
    simp only [dictErase, List.filter_cons] at *
    by_cases hk : k'' = k
    · subst hk
      rw [if_neg (by simp), ih]
      simp [dictGet, Ne.symm h]
    · rw [if_pos (by simpa using hk)]
      simp only [dictGet]
      split
      · rfl
      · exact ih

/-! ## lastN lemmas -/

lemma lastN_zero (l : List α) : lastN 0 l = [] := by
  simp [lastN]

lemma lastN_append_one (l : List α) (a : α) (n : Nat) :
    lastN (n + 1) (l ++ [a]) = lastN n l ++ [a] := by
  unfold lastN
  rw [List.length_append, List.length_singleton]
  rw [show l.length + 1 - (n + 1) = l.length - n from by omega]
  rw [List.drop_append_of_le_length (by omega)]

lemma lastN_lastN (m n : Nat) (h : m ≤ n) (l : List α) :
    lastN m (lastN n l) = lastN m l := by
  unfold lastN
  rw [List.length_drop, List.drop_drop]
  congr 1
  omega

lemma lastN_three_append (l : List α) (a : α) :
    lastN 3 (l ++ [a]) = lastN 2 l ++ [a] := lastN_append_one l a 2

lemma lastN_two_append (l : List α) (a : α) :
    lastN 2 (l ++ [a]) = lastN 1 l ++ [a] := lastN_append_one l a 1

lemma lastN_one_append (l : List α) (a : α) : lastN 1 (l ++ [a]) = [a] := by
  have h := lastN_append_one l a 0
  rw [lastN_zero] at h
  simpa using h

lemma str_data_append (s t : String) : (s ++ t).data = s.data ++ t.data :=
  String.data_append ..

lemma wrongLenMsg_ne (n : Nat) : wrongLenMsg n ≠ "成语应全为汉字" := by
  intro h
  have hd := congrArg (fun s => s.data.take 4) h
  simp only [wrongLenMsg, str_data_append, List.append_assoc] at hd
  rw [List.take_append_of_le_length (by decide)] at hd
  exact absurd hd (by decide)

/-! ## ScoreLedger lookups -/

lemma getD_recent_games (o : Option UserRecord) (a b : String) :
    (o.getD ⟨a, []⟩).recent_games = (o.getD ⟨b, []⟩).recent_games := by
  cases o <;> rfl

lemma add_user_score_lookup (us : List (String × List (String × UserRecord)))
    (sid uid n : String) (s : Nat) (t d : String) :
    dictGet ((dictGet (add_user_score us sid uid n s t d) sid).getD []) uid
      = some ⟨n, lastN 3 (gamesOf us sid uid ++ [⟨s, t, d⟩])⟩ := by
  unfold add_user_score gamesOf
  simp only [dictGet_set_self, Option.getD_some]
  exact congrArg
    (fun l => some (⟨n, lastN 3 (l ++ [⟨s, t, d⟩])⟩ : UserRecord))
    (getD_recent_games _ n "")

lemma gamesOf_add (us : List (String × List (String × UserRecord)))
    (sid uid n : String) (s : Nat) (t d : String) :
    gamesOf (add_user_score us sid uid n s t d) sid uid
      = lastN 3 (gamesOf us sid uid ++ [⟨s, t, d⟩]) := by
  show ((dictGet ((dictGet (add_user_score us sid uid n s t d) sid).getD [])
      uid).getD ⟨"", []⟩).recent_games = _
  rw [add_user_score_lookup]
  rfl

/-! ## Claim theorems: the pure core functions -/

/-- C5: for nonempty idioms `A`, `B` the chain check `can_jielong A B`
succeeds exactly when `A`'s last character (its boundary key) equals `B`'s
first character; on a mismatch it returns the message carrying both keys;
an empty argument yields the distinct empty-input rejection; and the check
is not commutative (witnessed by a pair accepted one way only). -/
theorem chain_check_spec (A B : String) :
    (A ≠ "" → B ≠ "" →
      (((can_jielong A B).1 = true) ↔ strLast A = strFirst B) ∧
      (strLast A ≠ strFirst B →
        can_jielong A B = (false,
          "无法接龙：\x27" ++ A ++ "\x27的尾字是\x27" ++
            String.singleton (strLast A) ++ "\x27，\x27" ++ B ++
            "\x27的首字是\x27" ++ String.singleton (strFirst B) ++ "\x27"))) ∧
    can_jielong "" B = (false, "成语为空") ∧
    can_jielong A "" = (false, "成语为空") ∧
    (can_jielong "龙飞凤舞" "舞文弄墨").1 = true ∧
    (can_jielong "舞文弄墨" "龙飞凤舞").1 = false := by
  refine ⟨fun hA hB => ⟨?_, ?_⟩, by simp [can_jielong], by simp [can_jielong],
    by decide, by decide⟩
  · unfold can_jielong
    rw [if_neg (by simp [hA, hB])]
    dsimp only
    split_ifs with h <;> simp [h]
  · intro hne
    unfold can_jielong
    rw [if_neg (by simp [hA, hB])]
    dsimp only
    rw [if_neg hne]

theorem chain_check_spec_witness :
    ((can_jielong "龙飞凤舞" "舞文弄墨").1 = true) ↔
      strLast "龙飞凤舞" = strFirst "舞文弄墨" :=
  ((chain_check_spec "龙飞凤舞" "舞文弄墨").1 (by decide) (by decide)).1

/-- C8 counterexample: on the empty input text the validator rejects with
the distinct empty-text reason, not with a wrong-length reason carrying
the stripped length 0, so the claim fails for that input. -/
theorem validator_empty_text_counterexample :
    is_valid_chengyu "" CallOutcome.noProvider = (false, "文本为空") ∧
    (is_valid_chengyu "" CallOutcome.noProvider).2 ≠
      wrongLenMsg (stripHan "").length := by
  constructor
  · decide
  · decide

/-- C8 (amended): for every nonempty input text the validator strips to
the permitted alphabet before measuring length and rejects with the
wrong-length reason carrying the stripped length whenever that length is
not 4 (the empty text is rejected earlier with a distinct empty-text
reason); the invalid-characters rejection is checked after stripping and
is unreachable for every input. -/
theorem validator_wrong_length_spec (text : String) (judge : CallOutcome) :
    (text ≠ "" → (stripHan text).length ≠ 4 →
      is_valid_chengyu text judge = (false, wrongLenMsg (stripHan text).length)) ∧
    (is_valid_chengyu text judge).2 ≠ "成语应全为汉字" := by
  constructor
  · intro htext hlen
    unfold is_valid_chengyu
    rw [if_neg htext]
    dsimp only
    rw [if_pos hlen]
  · unfold is_valid_chengyu
    dsimp only
    split_ifs with h1 h2 h3
    · decide
    · exact wrongLenMsg_ne _
    · exact absurd h3 (stripHan_self_ne_empty (by omega))
    · cases judge with
      | noProvider => decide
      | failure e =>
        dsimp only
        decide
      | reply s =>
        dsimp only
        split_ifs <;> decide

theorem validator_wrong_length_spec_witness :
    is_valid_chengyu "龙飞凤" CallOutcome.noProvider
      = (false, wrongLenMsg (stripHan "龙飞凤").length) :=
  (validator_wrong_length_spec "龙飞凤" CallOutcome.noProvider).1
    (by decide) (by decide)

/-- C3: if the candidate passes the format checks (exactly 4 permitted
characters after stripping), a failing/timed-out judge call and an empty
judge reply both yield acceptance (format-only pass), never rejection. -/
theorem judge_fail_open (text e : String) (h4 : (stripHan text).length = 4) :
    is_valid_chengyu text (CallOutcome.failure e) = (true, "基础检查通过") ∧
    is_valid_chengyu text (CallOutcome.reply "") = (true, "基础检查通过") := by
  have hne := stripHan_text_ne_empty h4
  have hok := stripHan_self_ne_empty h4
  constructor <;>
  · unfold is_valid_chengyu
    rw [if_neg hne]
    dsimp only
    rw [if_neg (by omega), if_neg hok]
    try simp

theorem judge_fail_open_witness :
    is_valid_chengyu "龙飞凤舞" (CallOutcome.failure "超时") = (true, "基础检查通过") ∧
    is_valid_chengyu "龙飞凤舞" (CallOutcome.reply "") = (true, "基础检查通过") :=
  judge_fail_open "龙飞凤舞" "超时" (by decide)

lemma ai_jielong_reply (last s : String) :
    ai_jielong last (CallOutcome.reply s) =
      if s = "" then (false, "AI接龙失败", "无响应")
      else if (stripHan (pyStrip s)).length = 4 ∧
          strFirst (stripHan (pyStrip s)) = strLast last then
        (true, stripHan (pyStrip s), "AI接龙成功")
      else (false, "AI接龙失败", "格式不符合要求") := rfl

/-- C7: the opponent strategy strips the oracle reply to the permitted
alphabet and accepts it exactly when the stripped length is 4 and its
first character equals the previous idiom's last character; otherwise it
returns the cannot-continue result; a transport/backend failure returns
the distinct result carrying the error; a missing provider has its own
result; and the move depends only on the first (single) oracle call. -/
theorem opponent_move_spec (last s e : String) (oracle oracle2 : Nat → CallOutcome) :
    ((ai_jielong last (CallOutcome.reply s)).1 = true ↔
      s ≠ "" ∧ (stripHan (pyStrip s)).length = 4 ∧
        strFirst (stripHan (pyStrip s)) = strLast last) ∧
    ((ai_jielong last (CallOutcome.reply s)).1 = true →
      ai_jielong last (CallOutcome.reply s)
        = (true, stripHan (pyStrip s), "AI接龙成功")) ∧
    ((ai_jielong last (CallOutcome.reply s)).1 = false → s ≠ "" →
      ai_jielong last (CallOutcome.reply s) = (false, "AI接龙失败", "格式不符合要求")) ∧
    ai_jielong last (CallOutcome.reply "") = (false, "AI接龙失败", "无响应") ∧
    ai_jielong last (CallOutcome.failure e) = (false, "AI接龙失败", e) ∧
    ai_jielong last CallOutcome.noProvider = (false, "未配置LLM", "") ∧
    (oracle 0 = oracle2 0 →
      ai_jielong_call last oracle = ai_jielong_call last oracle2) := by
  refine ⟨?_, ?_, ?_, by simp [ai_jielong], rfl, rfl, fun h => ?_⟩
  · rw [ai_jielong_reply]
    by_cases hs : s = ""
    · subst hs
      simp
    · rw [if_neg hs]
      split_ifs with h
      · simp [hs, h.1, h.2]
      · simp only [Bool.false_eq_true, false_iff]
        intro hc
        exact h ⟨hc.2.1, hc.2.2⟩
  · rw [ai_jielong_reply]
    by_cases hs : s = ""
    · subst hs
      simp
    · rw [if_neg hs]
      split_ifs with h
      · intro _
        rfl
      · simp
  · rw [ai_jielong_reply]
    by_cases hs : s = ""
    · intro _ h
      exact absurd hs h
    · rw [if_neg hs]
      split_ifs with h
      · simp
      · intro _ _
        rfl
  · unfold ai_jielong_call
    rw [h]

theorem opponent_move_spec_witness :
    ai_jielong "舞文弄墨" (CallOutcome.reply " 墨守成规！")
      = (true, stripHan (pyStrip " 墨守成规！"), "AI接龙成功") :=
  (opponent_move_spec "舞文弄墨" " 墨守成规！" ""
    (fun _ => CallOutcome.noProvider) (fun _ => CallOutcome.noProvider)).2.1
    (by decide)

/-- C6: each `add_user_score` call appends exactly one entry to that
user's `recent_games` and truncates to the most recent 3 (oldest dropped
first) while overwriting the stored name with the latest value; hence
after 4 calls for one user in one session, the stored record holds
exactly the last 3 scores, most-recent-last, under the latest name. -/
theorem score_ledger_rolling_three (us : List (String × List (String × UserRecord)))
    (sid uid n1 n2 n3 n4 : String) (s1 s2 s3 s4 : Nat)
    (t1 t2 t3 t4 d1 d2 d3 d4 : String) :
    dictGet ((dictGet (add_user_score us sid uid n1 s1 t1 d1) sid).getD []) uid
        = some ⟨n1, lastN 3 (gamesOf us sid uid ++ [⟨s1, t1, d1⟩])⟩ ∧
    dictGet ((dictGet (add_user_score (add_user_score (add_user_score
          (add_user_score us sid uid n1 s1 t1 d1) sid uid n2 s2 t2 d2)
          sid uid n3 s3 t3 d3) sid uid n4 s4 t4 d4) sid).getD []) uid
        = some ⟨n4, [⟨s2, t2, d2⟩, ⟨s3, t3, d3⟩, ⟨s4, t4, d4⟩]⟩ := by
  refine ⟨add_user_score_lookup .., ?_⟩
  rw [add_user_score_lookup, gamesOf_add, gamesOf_add, gamesOf_add]
  rw [lastN_three_append, lastN_lastN 2 3 (by omega), lastN_two_append,
    lastN_lastN 1 3 (by omega), lastN_one_append]
  rfl

/-! ## Claim theorems: session lifecycle -/

/-- C9: a start request while a session is already active returns the
already-active error and leaves the state unchanged; a stop request or a
move submission while no session exists returns the no-active-game outcome
(silence, for the regex-driven move handler) without creating or modifying
any state. -/
theorem session_state_errors :
    (∀ (st : PluginState) (sid : String) (args : List String)
        (judge gen : CallOutcome) (now : String) (g : GameSession),
      dictGet st.active_sessions sid = some g →
      start_game st sid args judge gen now = (st, [Reply.alreadyActive])) ∧
    (∀ (st : PluginState) (sid t1 t2 : String),
      dictGet st.active_sessions sid = none →
      stop_game st sid t1 t2 = (st, [Reply.noActiveGame])) ∧
    (∀ (st : PluginState) (sid uid uname msg : String) (judge aiO : CallOutcome),
      dictGet st.active_sessions sid = none →
      handle_chengyu_input st sid uid uname msg judge aiO = (st, [])) := by
  refine ⟨fun st sid args judge gen now g h => ?_, fun st sid t1 t2 h => ?_,
    fun st sid uid uname msg judge aiO h => ?_⟩
  · unfold start_game
    rw [if_pos (by rw [h]; rfl)]
  · unfold stop_game
    rw [h]
  · unfold handle_chengyu_input
    rw [h]

theorem session_state_errors_witness :
    stop_game ⟨[], [], []⟩ "g" "t1" "t2" = (⟨[], [], []⟩, [Reply.noActiveGame]) ∧
    handle_chengyu_input ⟨[], [], []⟩ "g" "u" "n" "舞文弄墨" CallOutcome.noProvider
        CallOutcome.noProvider = (⟨[], [], []⟩, []) ∧
    start_game ⟨[("g", ⟨"龙飞凤舞", ["龙飞凤舞"], [], "t0", "AI"⟩)], [], []⟩ "g" []
        CallOutcome.noProvider CallOutcome.noProvider "t1"
      = (⟨[("g", ⟨"龙飞凤舞", ["龙飞凤舞"], [], "t0", "AI"⟩)], [], []⟩,
        [Reply.alreadyActive]) :=
  ⟨session_state_errors.2.1 ⟨[], [], []⟩ "g" "t1" "t2" (by decide),
   session_state_errors.2.2 ⟨[], [], []⟩ "g" "u" "n" "舞文弄墨"
     CallOutcome.noProvider CallOutcome.noProvider (by decide),
   session_state_errors.1 _ "g" [] CallOutcome.noProvider CallOutcome.noProvider
     "t1" ⟨"龙飞凤舞", ["龙飞凤舞"], [], "t0", "AI"⟩ (by decide)⟩

/-! ## The pre-filter and the turn pipeline -/

lemma is_potential_false_cases {text : String}
    (h : text.data.any isDigitLatin = true ∨ startsWithSlash text = true ∨
      bannedPatterns.any (fun p => hasInfix p (stripHan text).data) = true) :
    is_potential_chengyu text = false := by
  unfold is_potential_chengyu
  dsimp only
  split_ifs with h1 h2 h3 h4 h5 <;> try rfl
  rcases h with h | h | h
  · exact absurd h h4
  · exact absurd h h3
  · exact absurd h h5

lemma is_potential_no_slash {text : String} (h : is_potential_chengyu text = true) :
    startsWithSlash text = false := by
  by_contra hc
  rw [is_potential_false_cases (Or.inr (Or.inl (by simpa using hc)))] at h
  cases h

lemma handler_silent_of_not_potential {st : PluginState}
    {sid uid uname rawMsg : String} {judge aiO : CallOutcome} (g : GameSession)
    (hs : dictGet st.active_sessions sid = some g)
    (h : is_potential_chengyu (pyStrip rawMsg) = false) :
    handle_chengyu_input st sid uid uname rawMsg judge aiO = (st, []) := by
  unfold handle_chengyu_input
  rw [hs]
  dsimp only
  by_cases hsl : startsWithSlash (pyStrip rawMsg) = true
  · rw [if_pos hsl]
  · rw [if_neg hsl, if_pos (by simp [h])]

/-- C10: in an active session, a message whose han-stripped text is 4
characters but hits a banned common-character pattern, or whose text
contains an ASCII digit or Latin letter, or starts with a slash, is
silently ignored by the handler: no validation is attempted, no rejection
is reported, and the state is unchanged — with no assumption that the text
is not a genuine, correctly chaining idiom. -/
theorem prefilter_silently_ignores (st : PluginState)
    (sid uid uname msg : String) (judge aiO : CallOutcome) (g : GameSession)
    (hs : dictGet st.active_sessions sid = some g)
    (h : ((stripHan msg).length = 4 ∧
        bannedPatterns.any (fun p => hasInfix p (stripHan msg).data) = true) ∨
      msg.data.any isDigitLatin = true ∨ startsWithSlash msg = true) :
    handle_chengyu_input st sid uid uname msg judge aiO = (st, []) := by
  rcases h with ⟨-, hban⟩ | hal | hsl
  · exact handler_silent_of_not_potential g hs
      (is_potential_false_cases (Or.inr (Or.inr (by rwa [stripHan_pyStrip]))))
  · refine handler_silent_of_not_potential g hs
      (is_potential_false_cases (Or.inl ?_))
    rw [List.any_eq_true] at hal ⊢
    obtain ⟨c, hc, hdc⟩ := hal
    exact ⟨c, mem_pyStrip_of_not_ws hc (digitLatin_not_ws hdc), hdc⟩
  · unfold handle_chengyu_input
    rw [hs]
    dsimp only
    rw [if_pos (startsWithSlash_pyStrip hsl)]

theorem prefilter_silently_ignores_witness :
    handle_chengyu_input
        ⟨[("g", ⟨"果然如此", ["果然如此"], [], "t0", "AI"⟩)], [], []⟩
        "g" "u" "n" "此起彼伏abc" CallOutcome.noProvider CallOutcome.noProvider
      = (⟨[("g", ⟨"果然如此", ["果然如此"], [], "t0", "AI"⟩)], [], []⟩, []) :=
  prefilter_silently_ignores _ "g" "u" "n" "此起彼伏abc"
    CallOutcome.noProvider CallOutcome.noProvider
    ⟨"果然如此", ["果然如此"], [], "t0", "AI"⟩ (by decide)
    (Or.inr (Or.inl (by decide)))

/-- C4 counterexample: with history `["龙飞凤舞", "舞文弄墨"]` (a state
produced by a start and one accepted move) and current idiom
`"舞文弄墨"`, resubmitting the old history entry `"龙飞凤舞"` fails the
chain check first: the handler replies with the chain rejection, not the
duplicate rejection, so "a repeated idiom always yields a duplicate
rejection" fails on the code. -/
theorem duplicate_not_always_duplicate_rejection :
    (handle_chengyu_input
        (start_game ⟨[], [], []⟩ "g" ["龙飞凤舞"] CallOutcome.noProvider
          CallOutcome.noProvider "t0").1
        "g" "u" "alice" "舞文弄墨" CallOutcome.noProvider
        (CallOutcome.failure "超时")).1.active_sessions
      = [("g", ⟨"舞文弄墨", ["龙飞凤舞", "舞文弄墨"], [("u", ⟨"alice", 1⟩)],
          "t0", "USER"⟩)] ∧
    "龙飞凤舞" ∈ ["龙飞凤舞", "舞文弄墨"] ∧
    (handle_chengyu_input
        ⟨[("g", ⟨"舞文弄墨", ["龙飞凤舞", "舞文弄墨"], [("u", ⟨"alice", 1⟩)],
          "t0", "USER"⟩)], [], []⟩
        "g" "u" "alice" "龙飞凤舞" CallOutcome.noProvider CallOutcome.noProvider).2
      = [Reply.cannotChain "alice"
          "无法接龙：\x27舞文弄墨\x27的尾字是\x27墨\x27，\x27龙飞凤舞\x27的首字是\x27龙\x27"] ∧
    (handle_chengyu_input
        ⟨[("g", ⟨"舞文弄墨", ["龙飞凤舞", "舞文弄墨"], [("u", ⟨"alice", 1⟩)],
          "t0", "USER"⟩)], [], []⟩
        "g" "u" "alice" "龙飞凤舞" CallOutcome.noProvider CallOutcome.noProvider).2
      ≠ [Reply.duplicateUsed "alice" "龙飞凤舞"] := by
  refine ⟨by decide, by decide, by decide, by decide⟩

/-- C4 (amended): the turn pipeline short-circuits in the order
(1) validation, (2) chain check, (3) duplicate-in-history check, each
failure yielding its distinct rejection with the session state unchanged;
a submission of an idiom already in the history never mutates the state,
and yields the duplicate rejection whenever it passes the pre-filter,
validation and chain stages (otherwise it is silently filtered or
rejected at the earlier stage). -/
theorem pipeline_short_circuit (st : PluginState)
    (sid uid uname rawMsg : String) (judge aiO : CallOutcome) (g : GameSession)
    (hs : dictGet st.active_sessions sid = some g) :
    (is_potential_chengyu (pyStrip rawMsg) = true →
      (is_valid_chengyu (pyStrip rawMsg) judge).1 = false →
      handle_chengyu_input st sid uid uname rawMsg judge aiO
        = (st, [Reply.invalidInput uname
            (is_valid_chengyu (pyStrip rawMsg) judge).2])) ∧
    (is_potential_chengyu (pyStrip rawMsg) = true →
      (is_valid_chengyu (pyStrip rawMsg) judge).1 = true →
      (can_jielong g.current_chengyu (pyStrip rawMsg)).1 = false →
      handle_chengyu_input st sid uid uname rawMsg judge aiO
        = (st, [Reply.cannotChain uname
            (can_jielong g.current_chengyu (pyStrip rawMsg)).2])) ∧
    (is_potential_chengyu (pyStrip rawMsg) = true →
      (is_valid_chengyu (pyStrip rawMsg) judge).1 = true →
      (can_jielong g.current_chengyu (pyStrip rawMsg)).1 = true →
      pyStrip rawMsg ∈ g.history →
      handle_chengyu_input st sid uid uname rawMsg judge aiO
        = (st, [Reply.duplicateUsed uname (pyStrip rawMsg)])) ∧
    (pyStrip rawMsg ∈ g.history →
      (handle_chengyu_input st sid uid uname rawMsg judge aiO).1 = st) := by
  refine ⟨fun hpot hval => ?_, fun hpot hval hchain => ?_,
    fun hpot hval hchain hdup => ?_, fun hdup => ?_⟩
  · unfold handle_chengyu_input
    rw [hs]
    dsimp only
    rw [if_neg (by rw [is_potential_no_slash hpot]; simp),
      if_neg (not_not_intro hpot)]
    rw [if_pos hval]
  · unfold handle_chengyu_input
    rw [hs]
    dsimp only
    rw [if_neg (by rw [is_potential_no_slash hpot]; simp),
      if_neg (not_not_intro hpot)]
    rw [if_neg (by simp [hval])]
    rw [if_pos hchain]
  · unfold handle_chengyu_input
    rw [hs]
    dsimp only
    rw [if_neg (by rw [is_potential_no_slash hpot]; simp),
      if_neg (not_not_intro hpot)]
    rw [if_neg (by simp [hval])]
    rw [if_neg (by simp [hchain]), if_pos hdup]
  · by_cases hpot : is_potential_chengyu (pyStrip rawMsg) = true
    · unfold handle_chengyu_input
      rw [hs]
      dsimp only
      rw [if_neg (by rw [is_potential_no_slash hpot]; simp),
        if_neg (not_not_intro hpot)]
      by_cases hval : (is_valid_chengyu (pyStrip rawMsg) judge).1 = false
      · rw [if_pos hval]
      · rw [if_neg hval]
        by_cases hchain : (can_jielong g.current_chengyu (pyStrip rawMsg)).1 = false
        · rw [if_pos hchain]
        · rw [if_neg hchain, if_pos hdup]
    · rw [handler_silent_of_not_potential g hs (by simpa using hpot)]

theorem pipeline_short_circuit_witness :
    handle_chengyu_input
        ⟨[("g", ⟨"人外有人", ["人外有人"], [], "t0", "AI"⟩)], [], []⟩
        "g" "u" "bob" "人外有人" CallOutcome.noProvider CallOutcome.noProvider
      = (⟨[("g", ⟨"人外有人", ["人外有人"], [], "t0", "AI"⟩)], [], []⟩,
        [Reply.duplicateUsed "bob" "人外有人"]) :=
  (pipeline_short_circuit
    ⟨[("g", ⟨"人外有人", ["人外有人"], [], "t0", "AI"⟩)], [], []⟩
    "g" "u" "bob" "人外有人" CallOutcome.noProvider CallOutcome.noProvider
    ⟨"人外有人", ["人外有人"], [], "t0", "AI"⟩ (by decide)).2.2.1
    (by decide) (by decide) (by decide) (by decide)

/-! ## Claim theorems: opponent failure and finalization (C1) -/

/-- C1 counterexample: after a successful user move, the opponent call
fails (an `Unavailable`-class outcome), yet the session is not finalized:
the resulting state still holds the active session, its game history is
still empty (no record written) and no scores were flushed, and a
subsequent stop does not answer no-active-game. -/
theorem opponent_failure_no_finalize_counterexample :
    (handle_chengyu_input
        (start_game ⟨[], [], []⟩ "g" ["龙飞凤舞"] CallOutcome.noProvider
          CallOutcome.noProvider "t0").1
        "g" "u" "alice" "舞文弄墨" CallOutcome.noProvider
        (CallOutcome.failure "超时")).1
      = ⟨[("g", ⟨"舞文弄墨", ["龙飞凤舞", "舞文弄墨"], [("u", ⟨"alice", 1⟩)],
          "t0", "USER"⟩)], [], []⟩ ∧
    (stop_game
        ⟨[("g", ⟨"舞文弄墨", ["龙飞凤舞", "舞文弄墨"], [("u", ⟨"alice", 1⟩)],
          "t0", "USER"⟩)], [], []⟩ "g" "t1" "t2").2
      ≠ [Reply.noActiveGame] := by
  refine ⟨by decide, by decide⟩

lemma stop_then_stop (st : PluginState) (sid t1 t2 t3 t4 : String)
    (g1 : GameSession) (hs : dictGet st.active_sessions sid = some g1) :
    dictGet (stop_game st sid t1 t2).1.active_sessions sid = none ∧
    (dictGet (stop_game st sid t1 t2).1.game_history sid).isSome = true ∧
    (stop_game (stop_game st sid t1 t2).1 sid t3 t4).2 = [Reply.noActiveGame] := by
  unfold stop_game
  rw [hs]
  dsimp only
  refine ⟨dictGet_erase_self .., ?_, ?_⟩
  · rw [dictGet_set_self]
    rfl
  · rw [dictGet_erase_self]

/-- C1 (amended): when, after a successful user submission, the opponent
move generation fails or returns a move already present in the history,
the handler announces the human as winner but does NOT finalize the
session: the session remains in the registry holding the user's accepted
move (the opponent's move is not appended), no game-history record is
written and no scores are flushed; only a subsequent explicit stop
finalizes the game — removing the session and writing the history record
— after which a further stop yields the no-active-game outcome. -/
theorem opponent_fail_requires_manual_stop (st : PluginState)
    (sid uid uname rawMsg t1 t2 t3 t4 : String) (judge aiO : CallOutcome)
    (g : GameSession)
    (hs : dictGet st.active_sessions sid = some g)
    (hpot : is_potential_chengyu (pyStrip rawMsg) = true)
    (hval : (is_valid_chengyu (pyStrip rawMsg) judge).1 = true)
    (hchain : (can_jielong g.current_chengyu (pyStrip rawMsg)).1 = true)
    (hdup : pyStrip rawMsg ∉ g.history)
    (hai : (ai_jielong (pyStrip rawMsg) aiO).1 = false ∨
      (ai_jielong (pyStrip rawMsg) aiO).2.1 ∈ g.history ++ [pyStrip rawMsg]) :
    (let r := handle_chengyu_input st sid uid uname rawMsg judge aiO
     let game1 : GameSession :=
       ⟨pyStrip rawMsg, g.history ++ [pyStrip rawMsg],
         dictSet g.user_scores uid
           ⟨uname, ((dictGet g.user_scores uid).getD ⟨uname, 0⟩).score + 1⟩,
         g.start_time, "USER"⟩
     dictGet r.1.active_sessions sid = some game1 ∧
     r.1.game_history = st.game_history ∧
     r.1.user_scores = st.user_scores ∧
     (r.2 = [Reply.userSuccess uname (pyStrip rawMsg)
          (((dictGet g.user_scores uid).getD ⟨uname, 0⟩).score + 1),
        Reply.aiDuplicate (ai_jielong (pyStrip rawMsg) aiO).2.1 uname] ∨
      r.2 = [Reply.userSuccess uname (pyStrip rawMsg)
          (((dictGet g.user_scores uid).getD ⟨uname, 0⟩).score + 1),
        Reply.aiFailed uname (ai_jielong (pyStrip rawMsg) aiO).2.2]) ∧
     dictGet (stop_game r.1 sid t1 t2).1.active_sessions sid = none ∧
     (dictGet (stop_game r.1 sid t1 t2).1.game_history sid).isSome = true ∧
     (stop_game (stop_game r.1 sid t1 t2).1 sid t3 t4).2
       = [Reply.noActiveGame]) := by
  dsimp only
  unfold handle_chengyu_input
  rw [hs]
  dsimp only
  rw [if_neg (by rw [is_potential_no_slash hpot]; simp),
    if_neg (not_not_intro hpot), if_neg (by simp [hval]),
    if_neg (by simp [hchain]), if_neg hdup]
  by_cases haiT : (ai_jielong (pyStrip rawMsg) aiO).1 = true
  · have hmem : (ai_jielong (pyStrip rawMsg) aiO).2.1
        ∈ g.history ++ [pyStrip rawMsg] := by
      rcases hai with hf | hm
      · rw [haiT] at hf
        cases hf
      · exact hm
    rw [if_pos haiT, if_pos hmem]
    exact ⟨dictGet_set_self .., rfl, rfl, Or.inl rfl,
      stop_then_stop _ sid t1 t2 t3 t4 _ (dictGet_set_self ..)⟩
  · rw [if_neg haiT]
    exact ⟨dictGet_set_self .., rfl, rfl, Or.inr rfl,
      stop_then_stop _ sid t1 t2 t3 t4 _ (dictGet_set_self ..)⟩

theorem opponent_fail_requires_manual_stop_witness :
    (stop_game (stop_game (handle_chengyu_input
        ⟨[("g", ⟨"龙飞凤舞", ["龙飞凤舞"], [], "t0", "AI"⟩)], [], []⟩
        "g" "u" "alice" "舞文弄墨" CallOutcome.noProvider
        (CallOutcome.failure "超时")).1 "g" "t1" "t2").1 "g" "t3" "t4").2
      = [Reply.noActiveGame] :=
  (opponent_fail_requires_manual_stop
    ⟨[("g", ⟨"龙飞凤舞", ["龙飞凤舞"], [], "t0", "AI"⟩)], [], []⟩
    "g" "u" "alice" "舞文弄墨" "t1" "t2" "t3" "t4"
    CallOutcome.noProvider (CallOutcome.failure "超时")
    ⟨"龙飞凤舞", ["龙飞凤舞"], [], "t0", "AI"⟩
    (by decide) (by decide) (by decide) (by decide) (by decide)
    (Or.inl (by decide))).2.2.2.2.2.2

/-! ## Claim theorems: the session invariant (C2) -/

lemma bool_eq_true_of_not_false {b : Bool} (h : ¬(b = false)) : b = true := by
  cases b
  · exact absurd rfl h
  · rfl

lemma is_potential_ne_empty {text : String}
    (h : is_potential_chengyu text = true) : text ≠ "" := by
  intro he
  subst he
  simp [is_potential_chengyu] at h

lemma chainOk_of_props {a b : String} (ha : a ≠ "") (hb : b ≠ "")
    (hk : strLast a = strFirst b) : chainOk a b := by
  unfold chainOk can_jielong
  rw [if_neg (by simp [ha, hb])]
  dsimp only
  rw [if_pos hk]

lemma ai_success_props {last : String} {o : CallOutcome}
    (h : (ai_jielong last o).1 = true) :
    (ai_jielong last o).2.1 ≠ "" ∧
      strFirst (ai_jielong last o).2.1 = strLast last := by
  cases o with
  | noProvider => cases h
  | failure e => cases h
  | reply s =>
    rw [ai_jielong_reply] at h ⊢
    by_cases hs : s = ""
    · rw [if_pos hs] at h
      cases h
    · rw [if_neg hs] at h ⊢
      by_cases hc : (stripHan (pyStrip s)).length = 4 ∧
          strFirst (stripHan (pyStrip s)) = strLast last
      · rw [if_pos hc] at h ⊢
        refine ⟨?_, hc.2⟩
        intro he
        have he' : stripHan (pyStrip s) = "" := he
        have h4 := hc.1
        rw [he'] at h4
        exact absurd h4 (by decide)
      · rw [if_neg hc] at h
        cases h

lemma singleton_session_inv (c ts : String) :
    SessionInv ⟨c, [c], [], ts, "AI"⟩ :=
  ⟨List.nodup_singleton _, List.chain'_singleton _, rfl⟩

lemma StateInv_set {st : PluginState} (h : StateInv st) {sid : String}
    {g : GameSession} (hg : SessionInv g) :
    StateInv { st with active_sessions := dictSet st.active_sessions sid g } := by
  intro sid' g' hget
  by_cases hk : sid' = sid
  · subst hk
    rw [dictGet_set_self] at hget
    injection hget with h'
    subst h'
    exact hg
  · rw [dictGet_set_ne _ hk] at hget
    exact h sid' g' hget

lemma StateInv_erase {st : PluginState} (h : StateInv st) (sid : String)
    (us : List (String × List (String × UserRecord)))
    (gh : List (String × List GameRecord)) :
    StateInv ⟨dictErase st.active_sessions sid, us, gh⟩ := by
  intro sid' g' hget
  by_cases hk : sid' = sid
  · subst hk
    rw [dictGet_erase_self] at hget
    cases hget
  · rw [dictGet_erase_ne _ hk] at hget
    exact h sid' g' hget

lemma append_one_inv {hist : List String} {cur m : String}
    (hnd : hist.Nodup) (hch : List.Chain' chainOk hist)
    (hlast : hist.getLast? = some cur) (hcm : chainOk cur m) (hm : m ∉ hist) :
    (hist ++ [m]).Nodup ∧ List.Chain' chainOk (hist ++ [m]) ∧
      (hist ++ [m]).getLast? = some m := by
  refine ⟨?_, ?_, List.getLast?_concat _⟩
  · refine List.Nodup.append hnd (List.nodup_singleton m) ?_
    intro a ha hb
    simp only [List.mem_singleton] at hb
    subst hb
    exact hm ha
  · refine List.Chain'.append hch (List.chain'_singleton m) ?_
    intro x hx y hy
    rw [hlast] at hx
    simp only [Option.mem_def, Option.some.injEq, List.head?_cons] at hx hy
    subst hx
    subst hy
    exact hcm

lemma startInv (st : PluginState) (sid : String) (args : List String)
    (judge gen : CallOutcome) (now : String) (h : StateInv st) :
    StateInv (start_game st sid args judge gen now).1 := by
  unfold start_game
  dsimp only
  split_ifs with h1 h2 h3
  · exact h
  · exact h
  · exact StateInv_set h (singleton_session_inv _ now)
  · exact StateInv_set h (singleton_session_inv _ now)

lemma stopInv (st : PluginState) (sid t1 t2 : String) (h : StateInv st) :
    StateInv (stop_game st sid t1 t2).1 := by
  unfold stop_game
  cases hget : dictGet st.active_sessions sid with
  | none => exact h
  | some game =>
    dsimp only
    exact StateInv_erase h sid _ _

lemma inputInv (st : PluginState) (sid uid uname rawMsg : String)
    (judge aiO : CallOutcome) (h : StateInv st) :
    StateInv (handle_chengyu_input st sid uid uname rawMsg judge aiO).1 := by
  unfold handle_chengyu_input
  cases hget : dictGet st.active_sessions sid with
  | none => exact h
  | some game =>
    dsimp only
    obtain ⟨hnd, hch, hlast⟩ := h sid game hget
    by_cases hsl : startsWithSlash (pyStrip rawMsg) = true
    · rw [if_pos hsl]
      exact h
    · rw [if_neg hsl]
      by_cases hpot : is_potential_chengyu (pyStrip rawMsg) = true
      · rw [if_neg (not_not_intro hpot)]
        by_cases hval : (is_valid_chengyu (pyStrip rawMsg) judge).1 = false
        · rw [if_pos hval]
          exact h
        · rw [if_neg hval]
          by_cases hchain :
              (can_jielong game.current_chengyu (pyStrip rawMsg)).1 = false
          · rw [if_pos hchain]
            exact h
          · rw [if_neg hchain]
            by_cases hdup : pyStrip rawMsg ∈ game.history
            · rw [if_pos hdup]
              exact h
            · rw [if_neg hdup]
              have inv1 := append_one_inv hnd hch hlast
                (bool_eq_true_of_not_false hchain) hdup
              by_cases haiT : (ai_jielong (pyStrip rawMsg) aiO).1 = true
              · rw [if_pos haiT]
                by_cases had : (ai_jielong (pyStrip rawMsg) aiO).2.1
                    ∈ game.history ++ [pyStrip rawMsg]
                · rw [if_pos had]
                  exact StateInv_set h inv1
                · rw [if_neg had]
                  have hai := ai_success_props haiT
                  exact StateInv_set h
                    (append_one_inv inv1.1 inv1.2.1 inv1.2.2
                      (chainOk_of_props (is_potential_ne_empty hpot)
                        hai.1 hai.2.symm) had)
              · rw [if_neg haiT]
                exact StateInv_set h inv1
      · rw [if_pos hpot]
        exact h

/-- C2: in every reachable state of the plugin, every active session's
history has no duplicate entries, every consecutive pair of idioms
satisfies the chain relation, and the session's current idiom equals the
last element of the history. -/
theorem session_invariant (st : PluginState) (hr : Reachable st)
    (sid : String) (g : GameSession)
    (hget : dictGet st.active_sessions sid = some g) :
    g.history.Nodup ∧ List.Chain' chainOk g.history ∧
      g.history.getLast? = some g.current_chengyu := by
  have hinv : StateInv st := by
    clear hget
    induction hr with
    | init us gh =>
      intro sid' g' hget'
      simp [dictGet] at hget'
    | start st' sid' args judge gen now _ ih =>
      exact startInv st' sid' args judge gen now ih
    | stop st' sid' t1 t2 _ ih => exact stopInv st' sid' t1 t2 ih
    | input st' sid' uid uname msg judge aiO _ ih =>
      exact inputInv st' sid' uid uname msg judge aiO ih
  exact hinv sid g hget

theorem session_invariant_witness :
    (["龙飞凤舞", "舞文弄墨"] : List String).Nodup ∧
    List.Chain' chainOk ["龙飞凤舞", "舞文弄墨"] ∧
    (["龙飞凤舞", "舞文弄墨"] : List String).getLast? = some "舞文弄墨" :=
  session_invariant _
    (Reachable.input _ "g" "u" "alice" "舞文弄墨" CallOutcome.noProvider
      (CallOutcome.failure "超时")
      (Reachable.start ⟨[], [], []⟩ "g" ["龙飞凤舞"] CallOutcome.noProvider
        CallOutcome.noProvider "t0" (Reachable.init [] [])))
    "g" ⟨"舞文弄墨", ["龙飞凤舞", "舞文弄墨"], [("u", ⟨"alice", 1⟩)], "t0", "USER"⟩
    (by decide)

end Chengyu
